import Mathlib

/-!
Shallow embedding of the mining pipeline of `src/miner.py` (an OEIS
closed-form miner) and proofs of the specification claims about it.

External collaborators (the Sage symbolic oracle, the `re` regex engine,
the json/lzo codecs, the HTTP client) are modelled as parameters; every
control-flow decision of the Python code itself is translated literally.
Strings are modelled as `List Char` so that Python's substring test
(`in`) becomes an executable infix search (`substr`).
-/

set_option autoImplicit false

namespace Miner

/-! ## Verification pass: `list_compare` and `expression_verify_sequence`

`expression_verify_sequence(exp, ground_truth_data)` (miner.py lines
267-287) compiles `exp` with `fast_callable` (exceptions there are caught
and yield `False`), then for `n in range(0, lg+1)` computes `fx = fexp(n)`
— note this call is NOT inside the `try:` block, so an exception raised by
the evaluation itself propagates out of the function — and appends
`int(fx.round())`, falling back to the raw value `fx` when rounding raises.
Finally it returns
`list_compare(e_data[:lg-1], gt) or list_compare(e_data[1:], gt)`.

We model an evaluated value as an abstract type `V`, the compiled callable
as `Option (Nat → Except Unit V)` (`none` = `fast_callable` raised), the
rounding `int(fx.round())` as `V → Option Int` (`none` = rounding raised,
caught) and the Python `!=` between a raw un-rounded value and a ground
truth integer as a parameter `rawEq`.
-/

/-- One entry of the Python list `e_data`: either a successfully rounded
integer or the raw evaluated value kept after `int(fx.round())` raised. -/
inductive EEntry (V : Type) where
  | rounded (z : Int)
  | raw (v : V)
deriving DecidableEq

/-- Equality test between an `e_data` entry and a ground-truth integer,
as performed by `A[n] != B[n]` in `list_compare`. -/
def entry_eq {V : Type} (rawEq : V → Int → Bool) : EEntry V → Int → Bool
  | .rounded z, b => z == b
  | .raw v, b => rawEq v b

/-- Model of `list_compare(A, B)` (miner.py lines 251-264): iterates `n` over
`range(len(A))` and compares `A[n]` to `B[n]`; vacuously `True` on an
empty `A`.  (When `len(A) > len(B)` the Python raises `IndexError`; no
call site reaches that case — both call sites pass `len(A) ≤ len(B)` —
and the model returns `false` there.) -/
def list_compare {α β : Type} (eq : α → β → Bool) : List α → List β → Bool
  | [], _ => true
  | _ :: _, [] => false
  | a :: as, b :: bs => eq a b && list_compare eq as bs

/-- The loop `for n in range(0, lg+1): fx = fexp(n); try: append
int(fx.round()) except: append fx`, over an explicit index list.  An
exception in `fexp n` itself (the `.error` case) propagates. -/
def build_e_data {V : Type} (fexp : Nat → Except Unit V) (roundFn : V → Option Int) :
    List Nat → Except Unit (List (EEntry V))
  | [] => .ok []
  | n :: ns =>
    match fexp n with
    | .error e => .error e
    | .ok v =>
      match build_e_data fexp roundFn ns with
      | .error e => .error e
      | .ok rest =>
        .ok ((match roundFn v with
              | some z => EEntry.rounded z
              | none => EEntry.raw v) :: rest)

/-- Model of `expression_verify_sequence(exp, ground_truth_data)` (lines 267-287).
`compiled = none` models `fast_callable` raising (caught: returns
`False`); an `.error` from evaluation propagates out as `.error`. -/
def expression_verify_sequence {V : Type} (compiled : Option (Nat → Except Unit V))
    (roundFn : V → Option Int) (rawEq : V → Int → Bool)
    (ground_truth_data : List Int) : Except Unit Bool :=
  match compiled with
  | none => .ok false
  | some fexp =>
    match build_e_data fexp roundFn (List.range (ground_truth_data.length + 1)) with
    | .error e => .error e
    | .ok e_data =>
      .ok (list_compare (entry_eq rawEq) (e_data.take (ground_truth_data.length - 1))
             ground_truth_data
           || list_compare (entry_eq rawEq) (e_data.drop 1) ground_truth_data)

/-! ## Oracle adapter entry point: `check_sequence`

`check_sequence(data, items=10, use_bm=False)` (lines 235-248) guesses on
the first `items` terms and only on success guesses the full sequence.
The underlying guesser is abstracted as a parameter; the second component
of the result counts how many times it was invoked. -/

/-- Model of `check_sequence` with an instrumented guesser-invocation counter. -/
def check_sequence {G : Type} (guess : List Int → Bool → Option G)
    (data : List Int) (items : Nat) (use_bm : Bool) : Option G × Nat :=
  let first_terms_data := data.take items
  if 7 < first_terms_data.length then
    match guess first_terms_data use_bm with
    | some _ => (guess data use_bm, 2)
    | none => (none, 1)
  else (none, 0)

/-! ## Novelty classification inside `process_sequences`

Lines 461-533 of miner.py.  After a successful guess `cf` (with
`closed_form = str(cf)`), the code runs:

    if len(closed_form) > 1 and not (cf.is_integer() and cf.is_constant()):
        simplified_closed_form = simplify_expression(cf)
        is_new = (closed_form is not None and closed_form not in name
                  and closed_form not in formula)
        is_new |= (simplified_closed_form is not None
                   and closed_form not in simplified_closed_form
                   and simplified_closed_form not in name
                   and simplified_closed_form not in formula)
        closed_form_exp = string_to_expression(closed_form)
        if closed_form_exp is not None and formula_exps is not None:
            is_new &= not (v_regex_match := formula_match_exp(formula_exps,
                                                              closed_form_exp))
        ...
        if simplified_closed_form != closed_form: simplified_closed_form = None
    else:
        closed_form = None
        simplified_closed_form = None

The Sage objects are abstracted: the closed form is given by its string
`cf_str` plus its `is_integer()`/`is_constant()` flags, the oracle calls
`simplify_expression`, `string_to_expression` and `formula_match_regex`
by their (optional) results, and Sage expression equality by `symEq`.
`formula_exps` entries may be Python `None` (a regex-matched formula whose
`sage_eval` failed); comparing `None` to a Sage expression yields `False`,
modelled by `opt_exp_eq`. -/

/-- Boolean test that `a` occurs at the head of `b`. -/
def list_starts_with : List Char → List Char → Bool
  | [], _ => true
  | _ :: _, [] => false
  | a :: as, b :: bs => a == b && list_starts_with as bs

/-- Python's substring test `a in b` on strings-as-char-lists. -/
def substr : List Char → List Char → Bool
  | a, [] => list_starts_with a []
  | a, b :: bs => list_starts_with a (b :: bs) || substr a bs

/-- The comparison `f_exp == closed_form_exp` where `f_exp` may be Python `None`. -/
def opt_exp_eq {E : Type} (symEq : E → E → Bool) (f : Option E) (c : E) : Bool :=
  match f with
  | some e => symEq e c
  | none => false

/-- Model of `formula_match_exp(formula_exps, closed_form_exp)` (lines 103-121):
`any(f_exp == closed_form_exp for f_exp in formula_exps)`. -/
def formula_match_exp {E : Type} (symEq : E → E → Bool)
    (formula_exps : List (Option E)) (closed_form_exp : E) : Bool :=
  formula_exps.any fun f => opt_exp_eq symEq f closed_form_exp

/-- The fields of the `sequence` row computed by the novelty block. -/
structure NoveltyResult where
  closed_form : Option (List Char)
  simplified_closed_form : Option (List Char)
  is_new : Bool
  v_regex_match : Bool
deriving DecidableEq

/-- The novelty block of `process_sequences` (lines 461-533), as a pure
function of the guess and the oracle answers. -/
def process_novelty {E : Type} (symEq : E → E → Bool)
    (name formula : List Char)
    (cf_str : List Char) (cf_is_integer cf_is_constant : Bool)
    (simplified : Option (List Char))
    (cf_exp : Option E)
    (formula_exps : Option (List (Option E))) : NoveltyResult :=
  if 1 < cf_str.length && !(cf_is_integer && cf_is_constant) then
    let is_new1 := !substr cf_str name && !substr cf_str formula
    let is_new2 := is_new1 ||
      (match simplified with
       | some s => !substr cf_str s && !substr s name && !substr s formula
       | none => false)
    let step3 : Bool × Bool :=
      match cf_exp, formula_exps with
      | some c, some l =>
        let m := formula_match_exp symEq l c
        (is_new2 && !m, m)
      | _, _ => (is_new2, false)
    let simplified2 : Option (List Char) :=
      match simplified with
      | some s => if s = cf_str then some s else none
      | none => none
    { closed_form := some cf_str, simplified_closed_form := simplified2,
      is_new := step3.1, v_regex_match := step3.2 }
  else
    { closed_form := none, simplified_closed_form := none,
      is_new := false, v_regex_match := false }

/-! ## `guess_sequence` and the shared `ALGORITHMS` list

`guess_sequence` (lines 213-232) is decorated with `@cache` (memoised on
the tuple argument and the `use_bm` flag) and, on a cache miss with
`use_bm` true, appends `"bm"` to the module-level list `ALGORITHMS`
(line 21: `ALGORITHMS = ['sage', 'pari']`).  The body then tries
`CFiniteSequences(field).guess(lst, algorithm=algo)` for
`field in [ZZ, QQ]` and `algo in ALGORITHMS`; on the first non-zero
result it returns `(s.closed_form(), algo, str(field))`, or `None`
when `closed_form()` raises.  The Sage guesser is the parameter
`cguess`; we also record the `(field, algo)` pairs actually tried. -/

/-- Outcome of one `C.guess(lst, algorithm=algo)` call: the guesser
returned `0`, or it succeeded and `closed_form()` returned `r`
(`found none` = `closed_form()` raised, making `guess_sequence`
return `None` at once). -/
inductive CGuessOutcome (R : Type) where
  | zero : CGuessOutcome R
  | found (r : Option R) : CGuessOutcome R

/-- The module-level mutable state touched by `guess_sequence`:
`ALGORITHMS` and the `functools.cache` memo table. -/
structure GuessState (R : Type) where
  algorithms : List String
  memo : List ((List Int × Bool) × Option (R × String × String))

/-- The initial interpreter state: `ALGORITHMS = ['sage', 'pari']`,
empty memo table. -/
def initGuessState (R : Type) : GuessState R :=
  { algorithms := ["sage", "pari"], memo := [] }

/-- Association-list lookup (used for the memo table and later for the
xref dictionaries). -/
def alookup {κ β : Type} [DecidableEq κ] : List (κ × β) → κ → Option β
  | [], _ => none
  | (k, v) :: rest, k' => if k = k' then some v else alookup rest k'

/-- The body's double loop: `for field in [ZZ, QQ]: for algo in algs:`,
returning the first success together with the list of tried
`(field, algo)` pairs. -/
def guess_loop {R : Type} (cguess : String → String → List Int → CGuessOutcome R)
    (lst : List Int) :
    List (String × String) → Option (R × String × String) × List (String × String)
  | [] => (none, [])
  | (field, algo) :: rest =>
    match cguess field algo lst with
    | .zero =>
      let next := guess_loop cguess lst rest
      (next.1, (field, algo) :: next.2)
    | .found r =>
      ((match r with
        | some x => some (x, algo, field)
        | none => none), [(field, algo)])

/-- The `guess_sequence` body on a cache miss: the `(field, algo)` pairs
in loop order (`ZZ` before `QQ`, the current `ALGORITHMS` inside). -/
def guess_body {R : Type} (cguess : String → String → List Int → CGuessOutcome R)
    (algs : List String) (lst : List Int) :
    Option (R × String × String) × List (String × String) :=
  guess_loop cguess lst
    ((["Integer Ring", "Rational Field"].map fun field => algs.map fun a => (field, a)).flatten)

/-- Model of `guess_sequence(lst, use_bm)` as a state transformer over the shared
module state: returns (result, tried `(field, algo)` pairs, new state).
A memo hit returns the cached result without executing the body — in
particular without appending `"bm"`. -/
def guess_sequence {R : Type}
    (cguess : String → String → List Int → CGuessOutcome R)
    (st : GuessState R) (lst : List Int) (use_bm : Bool) :
    Option (R × String × String) × List (String × String) × GuessState R :=
  match alookup st.memo (lst, use_bm) with
  | some cached => (cached, [], st)
  | none =>
    let algs := if use_bm then st.algorithms ++ ["bm"] else st.algorithms
    let body := guess_body cguess algs lst
    (body.1, body.2,
      { algorithms := algs, memo := st.memo ++ [((lst, use_bm), body.1)] })

/-! ## Failure counting: `download_only_remaining` and the
`process_sequences` driver

`download_only_remaining(start, end)` (lines 373-394) intends to abort
after 10 consecutive failed fetches, but re-initialises `fails = 0` at
the top of EVERY loop iteration (line 384), so the counter never exceeds
1 and the `sys.exit(-1)` branch is unreachable.  The
`process_sequences` driver (lines 436-550) keeps `fail_count` across
iterations: reset to 0 on a successful fetch, incremented on a failed
one, `sys.exit(-1)` when it reaches 10. -/

/-- Result of a batch run: normal completion or `sys.exit(code)`. -/
inductive RunResult (α : Type) where
  | finished (a : α)
  | exited (code : Int)
deriving DecidableEq

/-- The loop of `download_only_remaining` over the ids `range(start, end)`;
`get n = none` models a failed `get_sequence` fetch.  Note the faithful
reset of `fails` at the top of each iteration. -/
def download_loop (get : Nat → Option Unit) : List Nat → RunResult Unit
  | [] => .finished ()
  | n :: ns =>
    let fails : Nat := 0
    let fails := match get n with
      | some _ => fails
      | none => fails + 1
    if fails == 10 then .exited (-1) else download_loop get ns

/-- Model of `download_only_remaining(start, end)` (lines 373-394). -/
def download_only_remaining (get : Nat → Option Unit) (start stop : Nat) : RunResult Unit :=
  download_loop get (List.range' start (stop - start))

/-- The consecutive-failure accounting of the `process_sequences` driver
(lines 436-550): `raw i` is the cache-or-network payload for the i-th
processed id (`none` = fetch failed); per-row processing is irrelevant to
the counter and elided.  Returns the final `fail_count` or the abort. -/
def process_fail_loop (raw : Nat → Option Unit) (fail_count : Nat) :
    List Nat → RunResult Nat
  | [] => .finished fail_count
  | i :: is =>
    match raw i with
    | some _ => process_fail_loop raw 0 is
    | none =>
      let fc := fail_count + 1
      if fc == 10 then .exited (-1) else process_fail_loop raw fc is

/-! ## Cross-reference engine: `process_xrefs`

Phase 2 of `process_xrefs` (lines 645-677).  For each `i`, with
`id_a = sk[i]`:

    count = 0
    if id_a not in A: A[id_a] = []
    if id_a not in BLACKLIST:
        for j in range(i+1, lsk):
            id_b = sk[j]
            if id_b not in A[id_a] and id_b not in BLACKLIST:
                for fexp_a in D[id_a]:
                    for fexp_b in D[id_b]:
                        if fexp_a == fexp_b:
                            insert match row (id_a, id_b, fexp_a, fexp_b)
                            count += 1
                A[id_a].append(id_b)
    if count > 0:
        compress_pickle(XREF_PKL_FILE, A)   # persist snapshot
        conn.commit()

`D` maps ids to deduplicated formula expressions, `A` is the resumability
dictionary and symbolic equality is `symEq`.  The state records the
in-memory `A`, the last snapshot written to disk, and the match rows
inserted into the database. -/

/-- The mutable state of the cross-reference engine. -/
structure XrefSt (E : Type) where
  A : List (String × List String)
  disk : List (String × List String)
  match_table : List (String × String × E × E)
deriving DecidableEq

/-- The two inner formula loops for one pair `(id_a, id_b)`: the match
rows inserted, in loop order. -/
def xref_match_rows {E : Type} (symEq : E → E → Bool) (id_a id_b : String)
    (fas fbs : List E) : List (String × String × E × E) :=
  (fas.map fun fa => (fbs.filter fun fb => symEq fa fb).map fun fb =>
    (id_a, id_b, fa, fb)).flatten

/-- The `j`-loop over the remaining ids `sk[i+1:]`, threading
`(A[id_a], inserted match rows)`. -/
def xref_inner {E : Type} (symEq : E → E → Bool) (BL : List String)
    (D : List (String × List E)) (id_a : String) (l_fexp_a : List E) :
    List String → List String × List (String × String × E × E) →
    List String × List (String × String × E × E)
  | [], acc => acc
  | id_b :: rest, (A_a, rows) =>
    if !(A_a.contains id_b) && !(BL.contains id_b) then
      let l_fexp_b := (alookup D id_b).getD []
      xref_inner symEq BL D id_a l_fexp_a rest
        (A_a ++ [id_b], rows ++ xref_match_rows symEq id_a id_b l_fexp_a l_fexp_b)
    else
      xref_inner symEq BL D id_a l_fexp_a rest (A_a, rows)

/-- Replace the binding of `k` in an association list (append if new). -/
def aset {κ β : Type} [DecidableEq κ] : List (κ × β) → κ → β → List (κ × β)
  | [], k, v => [(k, v)]
  | (k', v') :: rest, k, v =>
    if k' = k then (k, v) :: rest else (k', v') :: aset rest k v

/-- One outer iteration of `process_xrefs` for `id_a`, comparing it with
every later id `sk_rest = sk[i+1:]`: the snapshot is written to disk only
when `count > 0`, i.e. when at least one new match row was inserted. -/
def xref_process_a {E : Type} (symEq : E → E → Bool) (BL : List String)
    (D : List (String × List E)) (sk_rest : List String) (id_a : String)
    (st : XrefSt E) : XrefSt E :=
  let st0 : XrefSt E :=
    if (alookup st.A id_a).isNone then { st with A := st.A ++ [(id_a, [])] } else st
  if BL.contains id_a then st0
  else
    let l_fexp_a := (alookup D id_a).getD []
    let A_a := (alookup st0.A id_a).getD []
    let inner := xref_inner symEq BL D id_a l_fexp_a sk_rest (A_a, [])
    let st1 : XrefSt E :=
      { st0 with A := aset st0.A id_a inner.1, match_table := st0.match_table ++ inner.2 }
    if 0 < inner.2.length then { st1 with disk := st1.A } else st1

/-! ## Content cache: `save_cached_sequence` / `load_cached_sequence`

Lines 140-209 of miner.py, with `SEQUENCE_MODE = "lzo"` (line 25).  The
filesystem is an association list from path strings to raw byte blobs;
`json.dumps`/`json.loads` and `lzo.compress`/`lzo.decompress` are the
abstract codec parameters `dumps`/`loads` and `compress9`/`decompress`
(the former called with compression level 9).  The directory-creation
side effect of `os.makedirs` has no observable counterpart in this model.
Paths are built exactly as the Python does: the shard is
`sequence_id[1:4]`. -/

/-- The shard slice `sequence_id[1:4]`. -/
def shard3 (sequence_id : String) : String :=
  String.mk ((sequence_id.toList.drop 1).take 3)

/-- The unsharded legacy path `oeis_data/<id>.lzo`. -/
def legacy_path (sequence_id : String) : String :=
  "oeis_data/" ++ sequence_id ++ ".lzo"

/-- The single-level shard path `oeis_data/<shard>/<id>.lzo`. -/
def shard1_path (sequence_id : String) : String :=
  "oeis_data/" ++ shard3 sequence_id ++ "/" ++ sequence_id ++ ".lzo"

/-- The two-level shard path `oeis_data/sequences/<shard>/<id>.lzo`. -/
def shard2_path (sequence_id : String) : String :=
  "oeis_data/sequences/" ++ shard3 sequence_id ++ "/" ++ sequence_id ++ ".lzo"

/-- Model of `load_cached_sequence(sequence_id)` (lines 140-164): try the three
paths in order, decompress and deserialise the first hit; `none` on a
complete miss. -/
def load_cached_sequence {P : Type} (loads : List Char → P)
    (decompress : List Nat → List Char)
    (fs : List (String × List Nat)) (sequence_id : String) : Option P :=
  match alookup fs (legacy_path sequence_id) with
  | some blob => some (loads (decompress blob))
  | none =>
    match alookup fs (shard1_path sequence_id) with
    | some blob => some (loads (decompress blob))
    | none =>
      match alookup fs (shard2_path sequence_id) with
      | some blob => some (loads (decompress blob))
      | none => none

/-- Model of `save_cached_sequence(sequence_id, data)` (lines 183-209): always
writes the two-level path; returns the new filesystem and the
`(raw, compressed)` byte counts the Python returns. -/
def save_cached_sequence {P : Type} (dumps : P → List Char)
    (compress9 : List Char → List Nat)
    (fs : List (String × List Nat)) (sequence_id : String) (data : P) :
    List (String × List Nat) × Nat × Nat :=
  let raw_data := dumps data
  let comp_data := compress9 raw_data
  (aset fs (shard2_path sequence_id) comp_data, raw_data.length, comp_data.length)

/-! ## Concrete evaluation functions used by the C3 examples -/

/-- An expression producing `1,1,2,3,5,8,13` at indices `0..6`. -/
def c3_exp1 : Nat → Int := fun n => ([1, 1, 2, 3, 5, 8, 13] : List Int).getD n 0

/-- An expression producing `0,1,1,2,3,5,8` at indices `0..6`. -/
def c3_exp2 : Nat → Int := fun n => ([0, 1, 1, 2, 3, 5, 8] : List Int).getD n 0

/-! ## Helper lemmas about the verification pass -/

/-- When every evaluation succeeds, `build_e_data` returns the mapped
entry list. -/
theorem build_e_data_total {V : Type} (f : Nat → V) (roundFn : V → Option Int) :
    ∀ ns : List Nat, build_e_data (fun n => .ok (f n)) roundFn ns =
      .ok (ns.map fun n => match roundFn (f n) with
            | some z => EEntry.rounded z
            | none => EEntry.raw (f n))
  | [] => rfl
  | n :: ns => by
    simp [build_e_data, build_e_data_total f roundFn ns]

/-- If `build_e_data` returns `.ok`, no index in the list raised. -/
theorem build_e_data_ok_no_err {V : Type} (fexp : Nat → Except Unit V)
    (roundFn : V → Option Int) :
    ∀ (ns : List Nat) (l : List (EEntry V)), build_e_data fexp roundFn ns = .ok l →
      ∀ n ∈ ns, fexp n ≠ Except.error () := by
  intro ns
  induction ns with
  | nil => intro l _ n hn; simp at hn
  | cons m ms ih =>
    intro l h n hn
    rw [build_e_data] at h
    cases hf : fexp m with
    | error e => rw [hf] at h; cases h
    | ok v =>
      rw [hf] at h
      cases hb : build_e_data fexp roundFn ms with
      | error e => rw [hb] at h; cases h
      | ok rest =>
        rcases List.mem_cons.mp hn with rfl | hmem
        · rw [hf]; intro hc; cases hc
        · exact ih rest hb n hmem

/-- On all-rounded entries `list_compare` is the equality of the first
list with the corresponding prefix of the second. -/
theorem lc_rounded_iff (rawEq : Int → Int → Bool) :
    ∀ (A B : List Int), A.length ≤ B.length →
      (list_compare (entry_eq rawEq) (A.map EEntry.rounded) B = true ↔
        A = B.take A.length) := by
  intro A
  induction A with
  | nil => intro B _; simp [list_compare]
  | cons a as ih =>
    intro B hlen
    cases B with
    | nil => simp at hlen
    | cons b bs =>
      simp only [List.map_cons, list_compare, entry_eq, List.length_cons, List.take]
      rw [Bool.and_eq_true, beq_iff_eq]
      constructor
      · rintro ⟨rfl, hrec⟩
        have := (ih bs (by simpa using hlen)).mp hrec
        simp [← this]
      · intro h
        have h1 : a = b := by injection h
        have h2 : as = bs.take as.length := by injection h
        exact ⟨h1, (ih bs (by simpa using hlen)).mpr h2⟩

/-! ## Claims C4, C8, C10 -/

/-- C4 (as stated, refuted): "if evaluating the expression at any index in
the checked range raises an exception, verification returns false and the
exception never escapes the verify call."  Counterexample: an expression
whose evaluation raises at index 0 makes `expression_verify_sequence`
propagate the exception (`.error ()`), not return `.ok false`. -/
theorem c4_counterexample :
    expression_verify_sequence (V := Unit) (some fun _ => .error ())
        (fun _ => none) (fun _ _ => false) [1] = .error () ∧
      (Except.error () : Except Unit Bool) ≠ .ok false :=
  ⟨rfl, fun h => Except.noConfusion h⟩

/-- C4 (amended): an exception in the compilation step (`fast_callable`)
is caught and yields `false`; an exception raised while evaluating the
compiled expression at an index in the checked range propagates out of
the verify call; an exception in the integer-rounding step is caught, so
evaluation that only fails to round never escapes. -/
theorem c4_amended :
    (∀ (V : Type) (roundFn : V → Option Int) (rawEq : V → Int → Bool) (gt : List Int),
        expression_verify_sequence (V := V) none roundFn rawEq gt = .ok false) ∧
    (∀ (V : Type) (fexp : Nat → Except Unit V) (roundFn : V → Option Int)
        (rawEq : V → Int → Bool) (gt : List Int) (n : Nat),
        n ≤ gt.length → fexp n = .error () →
        expression_verify_sequence (some fexp) roundFn rawEq gt = .error ()) ∧
    (∀ (V : Type) (f : Nat → V) (roundFn : V → Option Int)
        (rawEq : V → Int → Bool) (gt : List Int), ∃ b,
        expression_verify_sequence (some fun n => .ok (f n)) roundFn rawEq gt = .ok b) := by
  refine ⟨fun V roundFn rawEq gt => rfl, ?_, ?_⟩
  · intro V fexp roundFn rawEq gt n hn hf
    have hmem : n ∈ List.range (gt.length + 1) := List.mem_range.mpr (by omega)
    rw [expression_verify_sequence]
    cases hb : build_e_data fexp roundFn (List.range (gt.length + 1)) with
    | error e => cases e; rfl
    | ok l => exact absurd hf (build_e_data_ok_no_err fexp roundFn _ l hb n hmem)
  · intro V f roundFn rawEq gt
    simp only [expression_verify_sequence, build_e_data_total]
    exact ⟨_, rfl⟩

/-- C4 amended, witness: at the concrete raising expression the call
propagates `.error ()`, and a concrete rounding failure stays caught. -/
theorem c4_amended_witness :
    expression_verify_sequence (V := Unit) (some fun _ => .error ())
        (fun _ => none) (fun _ _ => false) [5] = .error () ∧
    expression_verify_sequence (V := Unit) none
        (fun _ => none) (fun _ _ => false) [5] = .ok false :=
  ⟨c4_amended.2.1 Unit (fun _ => .error ()) (fun _ => none) (fun _ _ => false) [5] 0
      (by decide) rfl,
    c4_amended.1 Unit (fun _ => none) (fun _ _ => false) [5]⟩

/-- C8: a sequence with fewer than 8 terms makes `check_sequence` return
`None` without invoking the underlying guesser at all, for any `items`
bound and `use_bm` flag, even when the guesser would have succeeded. -/
theorem c8_short_input_skips_guesser {G : Type} (guess : List Int → Bool → Option G)
    (data : List Int) (items : Nat) (use_bm : Bool) (h : data.length < 8) :
    check_sequence guess data items use_bm = (none, 0) := by
  have h2 : ¬ 7 < (data.take items).length := by
    rw [List.length_take]; omega
  simp only [check_sequence]
  rw [if_neg h2]

/-- C8 witness: a 3-term sequence with an always-succeeding guesser. -/
theorem c8_witness :
    check_sequence (fun _ _ => some (0 : Nat)) [1, 2, 3] 10 false = (none, 0) :=
  c8_short_input_skips_guesser (fun _ _ => some 0) [1, 2, 3] 10 false (by decide)

/-- C10: on a length-1 ground-truth list, any expression accepted by the
compilation step whose evaluation produces values (whatever they are,
whether or not they round to integers) verifies: the drop-last arm
compares the empty prefix `e_data[:0]` and `list_compare` is vacuously
true on an empty first argument. -/
theorem c10_singleton_ground_truth_verifies {V : Type}
    (f : Nat → V) (roundFn : V → Option Int) (rawEq : V → Int → Bool)
    (gt : List Int) (h : gt.length = 1) :
    expression_verify_sequence (some fun n => .ok (f n)) roundFn rawEq gt = .ok true := by
  rw [expression_verify_sequence, build_e_data_total, h]
  simp [list_compare]

/-- C10 witness: ground truth `[7]`, an expression evaluating to an
un-roundable value everywhere, raw comparison always false — still
verified. -/
theorem c10_witness :
    expression_verify_sequence (V := Unit) (some fun _ => .ok ())
        (fun _ => none) (fun _ _ => false) [7] = .ok true :=
  c10_singleton_ground_truth_verifies (fun _ => ()) (fun _ => none) (fun _ _ => false)
    [7] rfl

/-- C3: on a non-empty ground truth and an exception-free integer-valued
expression, verification evaluates at indices `0..len` and succeeds
exactly when the evaluated sequence aligned from index 0 equals the
ground truth with the last term dropped, or the evaluated sequence with
its first term dropped equals the full ground truth; in particular the
two catalogued Fibonacci examples verify via the drop-last and the
drop-first alignment respectively. -/
theorem c3_verification_offset_tolerance :
    (∀ (f : Nat → Int) (gt : List Int), gt ≠ [] →
      (expression_verify_sequence (some fun n => .ok (f n)) (fun z => some z)
          (fun _ _ => false) gt = .ok true ↔
        (((List.range (gt.length + 1)).map f).take (gt.length - 1) = gt.dropLast ∨
         ((List.range (gt.length + 1)).map f).drop 1 = gt))) ∧
    (expression_verify_sequence (some fun n => .ok (c3_exp1 n)) (fun z => some z)
        (fun _ _ => false) [1, 1, 2, 3, 5, 8] = .ok true ∧
      ((List.range 7).map c3_exp1).take 5 = ([1, 1, 2, 3, 5, 8] : List Int).dropLast) ∧
    (expression_verify_sequence (some fun n => .ok (c3_exp2 n)) (fun z => some z)
        (fun _ _ => false) [1, 1, 2, 3, 5, 8] = .ok true ∧
      ((List.range 7).map c3_exp2).drop 1 = ([1, 1, 2, 3, 5, 8] : List Int)) := by
  refine ⟨?_, ⟨rfl, by decide⟩, ⟨rfl, by decide⟩⟩
  intro f gt _
  have hE : ((List.range (gt.length + 1)).map fun n =>
      (match (fun z => some z : Int → Option Int) (f n) with
        | some z => EEntry.rounded z
        | none => EEntry.raw (f n))) =
      ((List.range (gt.length + 1)).map f).map EEntry.rounded := by
    rw [List.map_map]; rfl
  have hA : ((((List.range (gt.length + 1)).map f).take (gt.length - 1))).length
      ≤ gt.length := by
    rw [List.length_take, List.length_map, List.length_range]; omega
  have hB : ((((List.range (gt.length + 1)).map f).drop 1)).length ≤ gt.length := by
    rw [List.length_drop, List.length_map, List.length_range]; omega
  have e1 := lc_rounded_iff (fun _ _ => false)
    (((List.range (gt.length + 1)).map f).take (gt.length - 1)) gt hA
  have e2 := lc_rounded_iff (fun _ _ => false)
    (((List.range (gt.length + 1)).map f).drop 1) gt hB
  have hlt : ((((List.range (gt.length + 1)).map f).take (gt.length - 1))).length
      = gt.length - 1 := by
    rw [List.length_take, List.length_map, List.length_range]; omega
  have hld : ((((List.range (gt.length + 1)).map f).drop 1)).length = gt.length := by
    rw [List.length_drop, List.length_map, List.length_range]; omega
  rw [hlt] at e1
  rw [hld, List.take_length] at e2
  rw [expression_verify_sequence, build_e_data_total, hE]
  dsimp only
  rw [← List.map_take EEntry.rounded ((List.range (gt.length + 1)).map f) (gt.length - 1),
    ← List.map_drop EEntry.rounded ((List.range (gt.length + 1)).map f) 1]
  simp only [Except.ok.injEq, Bool.or_eq_true]
  rw [e1, e2, List.dropLast_eq_take]

/-- C3 witness: the characterisation instantiated at the first example. -/
theorem c3_witness :
    expression_verify_sequence (some fun n => .ok (c3_exp1 n)) (fun z => some z)
        (fun _ _ => false) [1, 1, 2, 3, 5, 8] = .ok true ↔
      (((List.range 7).map c3_exp1).take 5 = ([1, 1, 2, 3, 5, 8] : List Int).dropLast ∨
       ((List.range 7).map c3_exp1).drop 1 = ([1, 1, 2, 3, 5, 8] : List Int)) :=
  c3_verification_offset_tolerance.1 c3_exp1 [1, 1, 2, 3, 5, 8] (by decide)

/-- C1: whenever some known-formula entry parses to an expression that is
symbolically equal to the parsed closed form, the `is_new` flag computed
by the novelty block is false — whatever the textual-containment clauses
against the name and the serialized formula list produced. -/
theorem c1_symbolic_equality_suppresses_novelty {E : Type} (symEq : E → E → Bool)
    (name formula cf_str : List Char) (cf_is_integer cf_is_constant : Bool)
    (simplified : Option (List Char)) (c : E) (l : List (Option E)) (e : E)
    (hmem : some e ∈ l) (heq : symEq e c = true) :
    (process_novelty symEq name formula cf_str cf_is_integer cf_is_constant
        simplified (some c) (some l)).is_new = false := by
  have hm : formula_match_exp symEq l c = true :=
    List.any_eq_true.mpr ⟨some e, hmem, heq⟩
  rw [process_novelty.eq_def]
  split
  · simp [hm]
  · rfl

/-- C1 witness: a known formula parsed to the same expression as the
closed form, with both textual-containment tests failing (so the textual
candidate flag was true) — `is_new` still false. -/
theorem c1_witness :
    (process_novelty (E := Nat) (fun a b => a == b) ['q'] ['w'] ['a', 'b']
        false false none (some 5) (some [some 5])).is_new = false :=
  c1_symbolic_equality_suppresses_novelty (fun a b => a == b) ['q'] ['w'] ['a', 'b']
    false false none 5 [some 5] 5 (by decide) (by decide)

/-- C2 (as stated, refuted): a closed form that IS constant but NOT
trivially-integer (Sage: `is_constant()` true, `is_integer()` false, e.g.
`3/2`) is not excluded up front — the novelty branch runs and marks it
new when the containment tests fail. -/
theorem c2_counterexample :
    (process_novelty (E := Unit) (fun _ _ => false) ['z'] ['[', ']']
        ['3', '/', '2'] false true none none none).is_new = true := by
  decide

/-- C2 (amended): a closed form that is both trivially-integer and
constant — or whose printed form has length at most 1 — is excluded up
front: the novelty classification is skipped, `is_new` stays false and
no closed form is recorded. -/
theorem c2_constant_integer_closed_forms_not_novel {E : Type} (symEq : E → E → Bool)
    (name formula cf_str : List Char) (cf_is_integer cf_is_constant : Bool)
    (simplified : Option (List Char)) (cf_exp : Option E)
    (formula_exps : Option (List (Option E)))
    (h : (cf_is_integer && cf_is_constant) = true ∨ cf_str.length ≤ 1) :
    process_novelty symEq name formula cf_str cf_is_integer cf_is_constant
        simplified cf_exp formula_exps =
      { closed_form := none, simplified_closed_form := none,
        is_new := false, v_regex_match := false } := by
  rw [process_novelty.eq_def, if_neg]
  rcases h with h | h
  · rw [h]; simp
  · simp [show ¬ 1 < cf_str.length by omega]

/-- C2 amended witness: the integer constant closed form `50`. -/
theorem c2_amended_witness :
    process_novelty (E := Unit) (fun _ _ => false) ['z'] ['[', ']']
        ['5', '0'] true true none none none =
      { closed_form := none, simplified_closed_form := none,
        is_new := false, v_regex_match := false } :=
  c2_constant_integer_closed_forms_not_novel (fun _ _ => false) ['z'] ['[', ']']
    ['5', '0'] true true none none none (Or.inl rfl)

/-- C5 (code bug): `process_sequences` does abort with a non-zero exit
after 10 consecutive fetch failures and survives 9 failures followed by
a success — but `download_only_remaining` resets its `fails` counter at
the top of every loop iteration, so a download run with 10 consecutive
fetch failures completes normally instead of terminating. -/
theorem c5_failure_threshold :
    download_only_remaining (fun _ => none) 0 10 = .finished () ∧
    process_fail_loop (fun _ => none) 0 (List.range 10) = .exited (-1) ∧
    process_fail_loop (fun i => if i < 9 then none else some ()) 0 (List.range 10) =
      .finished 0 := by
  refine ⟨?_, ?_, ?_⟩ <;> decide

/-- C6 (as stated, refuted): identifier `A1` finishes all its comparisons
(against `A2`; no formula matches), its comparison set is recorded in the
in-memory dictionary — but `count == 0`, so the snapshot on disk is left
empty: the completed set is NOT durably persisted before the engine moves
on, and an interruption now loses a completed identifier. -/
theorem c6_counterexample :
    (xref_process_a (E := Nat) (fun a b => a == b) [] [("A1", [1]), ("A2", [2])]
        ["A2"] "A1" ⟨[], [], []⟩).A = [("A1", ["A2"])] ∧
    (xref_process_a (E := Nat) (fun a b => a == b) [] [("A1", [1]), ("A2", [2])]
        ["A2"] "A1" ⟨[], [], []⟩).disk = [] := by
  exact ⟨rfl, rfl⟩

/-- C6 (amended): after finishing the comparisons for an identifier `a`,
the snapshot is durably persisted exactly when at least one new match row
was inserted for `a` (`count > 0`); when no new match was found, the
on-disk snapshot is left as it was, so an interruption can lose the
completed comparison sets of all identifiers processed since the last
match. -/
theorem c6_snapshot_persisted_iff_matches {E : Type} (symEq : E → E → Bool)
    (BL : List String) (D : List (String × List E)) (sk_rest : List String)
    (id_a : String) (st : XrefSt E) :
    ((xref_process_a symEq BL D sk_rest id_a st).match_table.length >
        st.match_table.length →
      (xref_process_a symEq BL D sk_rest id_a st).disk =
        (xref_process_a symEq BL D sk_rest id_a st).A) ∧
    ((xref_process_a symEq BL D sk_rest id_a st).match_table.length =
        st.match_table.length →
      (xref_process_a symEq BL D sk_rest id_a st).disk = st.disk) := by
  rw [xref_process_a]
  dsimp only
  set st0 := (if (alookup st.A id_a).isNone = true
      then { st with A := st.A ++ [(id_a, [])] } else st) with hst0
  have hmt : st0.match_table = st.match_table := by
    rw [hst0]; split <;> rfl
  have hdk : st0.disk = st.disk := by
    rw [hst0]; split <;> rfl
  by_cases hbl : BL.contains id_a = true
  · rw [if_pos hbl]
    exact ⟨fun h => absurd h (by rw [hmt]; omega), fun _ => hdk⟩
  · rw [if_neg hbl]
    by_cases hc : 0 < (xref_inner symEq BL D id_a ((alookup D id_a).getD [])
        sk_rest ((alookup st0.A id_a).getD [], [])).2.length
    · rw [if_pos hc]
      refine ⟨fun _ => rfl, fun h => ?_⟩
      exfalso
      dsimp at h
      rw [hmt, List.length_append] at h
      omega
    · rw [if_neg hc]
      refine ⟨fun h => ?_, fun _ => hdk⟩
      exfalso
      dsimp at h
      rw [hmt, List.length_append] at h
      omega

/-- C6 amended witness: with a real formula match between `A1` and `A2`
the snapshot IS persisted (disk = in-memory dictionary). -/
theorem c6_witness :
    (xref_process_a (E := Nat) (fun a b => a == b) [] [("A1", [1]), ("A2", [1])]
        ["A2"] "A1" ⟨[], [], []⟩).disk =
      (xref_process_a (E := Nat) (fun a b => a == b) [] [("A1", [1]), ("A2", [1])]
        ["A2"] "A1" ⟨[], [], []⟩).A :=
  (c6_snapshot_persisted_iff_matches (fun a b => a == b) [] [("A1", [1]), ("A2", [1])]
    ["A2"] "A1" ⟨[], [], []⟩).1 (by decide)

/-! ## Helper lemmas for the cache model -/

/-- Writing with `aset` makes the key visible to `alookup`. -/
theorem alookup_aset_self {κ β : Type} [DecidableEq κ] :
    ∀ (l : List (κ × β)) (k : κ) (v : β), alookup (aset l k v) k = some v := by
  intro l k v
  induction l with
  | nil => simp [aset, alookup]
  | cons p rest ih =>
    by_cases h : p.1 = k
    · simp [aset, alookup, h]
    · simp only [aset]
      rw [if_neg h]
      simp only [alookup]
      rw [if_neg h]
      exact ih

/-- Writing with `aset` leaves every other key's binding unchanged. -/
theorem alookup_aset_other {κ β : Type} [DecidableEq κ] :
    ∀ (l : List (κ × β)) (k k' : κ) (v : β), k ≠ k' →
      alookup (aset l k v) k' = alookup l k' := by
  intro l k k' v hne
  induction l with
  | nil => simp [aset, alookup, hne]
  | cons p rest ih =>
    by_cases h : p.1 = k
    · simp only [aset]
      rw [if_pos h]
      simp only [alookup]
      rw [if_neg hne, if_neg (h ▸ hne)]
    · simp only [aset]
      rw [if_neg h]
      simp only [alookup]
      by_cases h2 : p.1 = k'
      · rw [if_pos h2, if_pos h2]
      · rw [if_neg h2, if_neg h2]
        exact ih

/-- The legacy flat path is never the two-level shard path (their lengths
differ by the `sequences/<shard>/` components). -/
theorem legacy_path_ne_shard2_path (sequence_id : String) :
    legacy_path sequence_id ≠ shard2_path sequence_id := by
  intro h
  have h2 := congrArg String.length h
  rw [legacy_path, shard2_path, shard3] at h2
  simp only [String.length_append, String.length_mk] at h2
  have e1 : ("oeis_data/" : String).length = 10 := by decide
  have e2 : (".lzo" : String).length = 4 := by decide
  have e3 : ("oeis_data/sequences/" : String).length = 20 := by decide
  have e4 : ("/" : String).length = 1 := by decide
  rw [e1, e2, e3, e4] at h2
  omega

/-- The single-level shard path is never the two-level shard path. -/
theorem shard1_path_ne_shard2_path (sequence_id : String) :
    shard1_path sequence_id ≠ shard2_path sequence_id := by
  intro h
  have h2 := congrArg String.length h
  rw [shard1_path, shard2_path] at h2
  simp only [String.length_append] at h2
  have e1 : ("oeis_data/" : String).length = 10 := by decide
  have e3 : ("oeis_data/sequences/" : String).length = 20 := by decide
  rw [e1, e3] at h2
  omega

/-- C7: cache round trip.  Writing a payload and reading it back returns
the payload (given the codecs invert on it and the id has no stale entry
at the shadowing legacy or single-level paths); the write touches exactly
the two-level shard path; and the lookup honours the order legacy path,
single-level shard path, two-level shard path. -/
theorem c7_cache_round_trip {P : Type} (dumps : P → List Char) (loads : List Char → P)
    (compress9 : List Char → List Nat) (decompress : List Nat → List Char)
    (fs : List (String × List Nat)) (sequence_id : String) (data : P)
    (hcodec : decompress (compress9 (dumps data)) = dumps data)
    (hjson : loads (dumps data) = data)
    (hlegacy : alookup fs (legacy_path sequence_id) = none)
    (hshard1 : alookup fs (shard1_path sequence_id) = none) :
    load_cached_sequence loads decompress
        (save_cached_sequence dumps compress9 fs sequence_id data).1 sequence_id =
      some data ∧
    (∀ q : String, q ≠ shard2_path sequence_id →
      alookup (save_cached_sequence dumps compress9 fs sequence_id data).1 q =
        alookup fs q) ∧
    (∀ (fs' : List (String × List Nat)) (blob : List Nat),
      alookup fs' (legacy_path sequence_id) = some blob →
      load_cached_sequence loads decompress fs' sequence_id =
        some (loads (decompress blob))) := by
  refine ⟨?_, ?_, ?_⟩
  · rw [load_cached_sequence, save_cached_sequence]
    dsimp only
    rw [alookup_aset_other _ _ _ _
        (fun h => legacy_path_ne_shard2_path sequence_id h.symm), hlegacy]
    rw [alookup_aset_other _ _ _ _
        (fun h => shard1_path_ne_shard2_path sequence_id h.symm), hshard1]
    rw [alookup_aset_self]
    dsimp only
    rw [hcodec, hjson]
  · intro q hq
    rw [save_cached_sequence]
    dsimp only
    exact alookup_aset_other _ _ _ _ (fun h => hq h.symm)
  · intro fs' blob hb
    rw [load_cached_sequence, hb]

/-- C7 witness: a concrete payload round-trips through the cache. -/
theorem c7_witness :
    load_cached_sequence (fun s => s.length) (fun l => l.map Char.ofNat)
        (save_cached_sequence (fun n => List.replicate n 'a')
          (fun s => s.map Char.toNat) [] "A000045" 3).1 "A000045" = some 3 :=
  (c7_cache_round_trip (fun n => List.replicate n 'a') (fun s => s.length)
    (fun s => s.map Char.toNat) (fun l => l.map Char.ofNat) [] "A000045" 3
    (by decide) (by decide) rfl rfl).1

/-- C9 (as stated, refuted): not every call with `use_bm` true appends
`"bm"` — two identical `use_bm` calls leave `ALGORITHMS` at
`["sage", "pari", "bm"]` (no duplicate appended, the memoised second call
never runs the body) and return the state unchanged. -/
theorem c9_counterexample :
    ((guess_sequence (R := Unit) (fun _ _ _ => .zero)
        ((guess_sequence (R := Unit) (fun _ _ _ => .zero)
          (initGuessState Unit) [1] true).2.2) [1] true).2.2).algorithms =
      ["sage", "pari", "bm"] ∧
    (guess_sequence (R := Unit) (fun _ _ _ => .zero)
        ((guess_sequence (R := Unit) (fun _ _ _ => .zero)
          (initGuessState Unit) [1] true).2.2) [1] true).2.2 =
      (guess_sequence (R := Unit) (fun _ _ _ => .zero)
        (initGuessState Unit) [1] true).2.2 :=
  ⟨rfl, rfl⟩

/-- C9 (amended): `guess_sequence` is not a deterministic function of its
arguments.  A cache-miss call with `use_bm` true appends `"bm"` to the
shared module-level `ALGORITHMS` list; hence there exist two runs in
which the same call with identical arguments and `use_bm` false tries
different algorithm sets — without `"bm"` when made before any `use_bm`
call, including `"bm"` when made after one — and repeated cache-miss
`use_bm` calls (distinct arguments) append duplicate `"bm"` entries.
Memo-hit calls leave the list untouched. -/
theorem c9_shared_algorithms_mutation :
    (∀ (R : Type) (cg : String → String → List Int → CGuessOutcome R)
        (st : GuessState R) (lst : List Int),
      alookup st.memo (lst, true) = none →
      (guess_sequence cg st lst true).2.2.algorithms = st.algorithms ++ ["bm"]) ∧
    ((guess_sequence (R := Unit) (fun _ _ _ => .zero) (initGuessState Unit)
        [1, 2] false).2.1 =
      [("Integer Ring", "sage"), ("Integer Ring", "pari"),
        ("Rational Field", "sage"), ("Rational Field", "pari")] ∧
      (guess_sequence (R := Unit) (fun _ _ _ => .zero)
          ((guess_sequence (R := Unit) (fun _ _ _ => .zero) (initGuessState Unit)
            [9] true).2.2) [1, 2] false).2.1 =
        [("Integer Ring", "sage"), ("Integer Ring", "pari"), ("Integer Ring", "bm"),
          ("Rational Field", "sage"), ("Rational Field", "pari"),
          ("Rational Field", "bm")]) ∧
    (guess_sequence (R := Unit) (fun _ _ _ => .zero)
        ((guess_sequence (R := Unit) (fun _ _ _ => .zero) (initGuessState Unit)
          [9] true).2.2) [8] true).2.2.algorithms = ["sage", "pari", "bm", "bm"] := by
  refine ⟨?_, ⟨rfl, rfl⟩, rfl⟩
  intro R cg st lst hmiss
  rw [guess_sequence, hmiss]
  dsimp only
  rw [if_pos rfl]

/-- C9 amended witness: a concrete cache-miss `use_bm` call appends
`"bm"` to the initial list. -/
theorem c9_witness :
    (guess_sequence (R := Unit) (fun _ _ _ => .zero) (initGuessState Unit)
        [1] true).2.2.algorithms = (initGuessState Unit).algorithms ++ ["bm"] :=
  c9_shared_algorithms_mutation.1 Unit (fun _ _ _ => .zero) (initGuessState Unit) [1] rfl

end Miner
